import Mathlib

/-!
Shallow embedding of the scoring and ranking engine of the ctfhub
application (src/ctfhub/models.py), covering:

- the challenge solve state machine (`Challenge.save` plus the
  `MonitorField`/`FieldTracker` behaviour of `status` / `solved_time`),
- the credit splitter and per-competition aggregator of
  `CtfStats.ranking_stats`,
- the rating accumulator with its 2-decimal rounding,
- `Ctf.team_timeline` and `Member.best_category`.

Machine conventions:

- Members are modelled by their identity (`MemberId := Nat`); solver sets
  (Django many-to-many collections) are duplicate-free lists; adding to a
  many-to-many set is `addIfNew` (idempotent insertion).
- `datetime` values are pairs (year, position within the year) ordered
  lexicographically, which is all the code uses (`start_date__year`,
  comparisons, ordering by date).
- Python float arithmetic is modelled by exact rational arithmetic (the
  specification states the arithmetic is real-valued); `round(x, 2)` is
  modelled by round-half-to-even on hundredths, Python's rounding rule.
- Python exceptions (`ZeroDivisionError` from `x / 0`, `ValueError` from
  `max([])`) are modelled by an `Option` result: `none` means the Python
  code raises.
-/

namespace Ctfhub

abbrev MemberId := Nat

/-- A `datetime` value: its calendar year together with its position inside
the year, compared lexicographically. -/
structure DateTime where
  year : Int
  sub : Int
deriving DecidableEq, Repr

def DateTime.ble (a b : DateTime) : Bool :=
  a.year < b.year || (a.year == b.year && a.sub ≤ b.sub)

def DateTime.blt (a b : DateTime) : Bool :=
  a.year < b.year || (a.year == b.year && a.sub < b.sub)

/-- One row of the `Challenge` model: the fields read by the scoring and
ranking code.  `status` holds one of the `STATUS` choice strings
`"unsolved"` / `"solved"`; `flag` is the stored flag text (`blank=True`,
empty string = unsolved sentinel); `solvers` is the many-to-many solver
set; `solvedTime` is the `MonitorField` monitoring `status` (modelled as
`none` until first stamped); `category` is the nullable foreign key to
`ChallengeCategory`, represented by its name. -/
structure Challenge where
  id : Nat
  points : Int
  category : Option String
  flag : String
  status : String
  solvedTime : Option DateTime
  solvers : List MemberId
deriving DecidableEq, Repr

/-- One row of the `Ctf` model: the fields read by the scoring and ranking
code.  `visibility` holds the stored string of the `visibility` CharField. -/
structure Ctf where
  id : Nat
  visibility : String
  rating : ℚ
  startDate : Option DateTime
  endDate : Option DateTime
  challenges : List Challenge
deriving DecidableEq, Repr

/-- `Ctf.VisibilityType.PUBLIC = "OPEN"`: the stored value of the PUBLIC
choice of the `visibility` field (models.py line 132). -/
def Ctf.VisibilityType.PUBLIC : String := "OPEN"

/-- `Ctf.VisibilityType.PRIVATE = "PRIV"`: the stored value of the PRIVATE
choice of the `visibility` field (models.py line 133). -/
def Ctf.VisibilityType.PRIVATE : String := "PRIV"

/-- `Ctf.is_public`: `self.visibility == Ctf.VisibilityType.PUBLIC`
(models.py line 190). -/
def Ctf.is_public (c : Ctf) : Bool :=
  c.visibility == Ctf.VisibilityType.PUBLIC

/-- `Ctf.is_finished` (models.py lines 269-285): a permanent CTF (both
dates null) is finished; a time-limited CTF is finished when
`now >= end_date`; any other shape raises `AttributeError`, modelled as
`none`. -/
def Ctf.is_finished (c : Ctf) (now : DateTime) : Option Bool :=
  match c.startDate, c.endDate with
  | none, none => some true
  | some _, some e => some (e.ble now)
  | _, _ => none

/-- Idempotent insertion into a many-to-many collection (Django
`.add`): a no-op when the element is already present. -/
def addIfNew (l : List MemberId) (m : MemberId) : List MemberId :=
  if m ∈ l then l else l ++ [m]

/-- The single mutation path of a challenge: the caller stores
`candidate_text` into `flag`, sets `last_update_by` to the submitter and
calls `Challenge.save` (models.py lines 1619-1625):

- `flag_tracker.has_changed("flag")` compares the candidate text with the
  previously saved flag byte-for-byte;
- on a change, `status` is set to `"solved"` when the new flag is
  non-empty (Python truthiness) and `"unsolved"` otherwise, and
  `last_update_by` is added to `solvers`;
- `super().save()` then runs the `MonitorField` `pre_save` of
  `solved_time` (models.py lines 1570-1575): whenever the monitored
  `status` field has changed and its new value is `"solved"`,
  `solved_time` is set to the current time. -/
def submit_flag (c : Challenge) (text : String) (submitter : MemberId)
    (now : DateTime) : Challenge :=
  if text ≠ c.flag then
    let st := if text ≠ "" then "solved" else "unsolved"
    { c with
      flag := text
      status := st
      solvers := addIfNew c.solvers submitter
      solvedTime := if st ≠ c.status ∧ st = "solved" then some now else c.solvedTime }
  else c

/-- Invariant 1 of the data model: `status == SOLVED ⟺ flag is non-empty`. -/
def flagStatusInv (c : Challenge) : Prop :=
  c.status = "solved" ↔ c.flag ≠ ""

/-- Nearest integer with ties broken to the even integer: Python's
`round` on exact values. -/
def rheInt (x : ℚ) : ℤ :=
  if Int.fract x = 1 / 2 then (if Even ⌊x⌋ then ⌊x⌋ else ⌊x⌋ + 1)
  else ⌊x + 1 / 2⌋

/-- Python's `round(x, 2)`: round to the nearest hundredth, ties to even. -/
def round2 (x : ℚ) : ℚ := (rheInt (x * 100) : ℚ) / 100

/-- A rational that is a whole number of hundredths (the shape of every
value `round(_, 2)` produces). -/
def IsHundredth (x : ℚ) : Prop := ∃ n : ℤ, x = (n : ℚ) / 100

/-- The credit split applied by both `CtfStats.ranking_stats` (models.py
line 1801) and `Ctf.team_timeline` (models.py line 325):
`chall.points / len(chall.solvers.all())` for a solver, `0` for anyone
else.  The division is only ever reached with a non-empty solver list. -/
def share (ch : Challenge) (m : MemberId) : ℚ :=
  if m ∈ ch.solvers then (ch.points : ℚ) / (ch.solvers.length : ℚ) else 0

/-!  `CtfStats.ranking_stats` (models.py lines 1769-1845). -/

/-- The queryset filter of `ranking_stats` (models.py lines 1771-1787):
`visibility="public"`, `rating__gt=0`, `end_date__lt=now` (SQL: a null
`end_date` never satisfies the comparison), `start_date__year=self.year`
(null `start_date` has no year), and the join conditions
`challenge__solvers__isnull=False, challenge__status="solved"` — a single
`filter` call, so one and the same challenge must be solved and have a
solver; `distinct()` collapses the join duplicates. -/
def rankingFilter (now : DateTime) (year : Int) (c : Ctf) : Bool :=
  c.visibility == "public" && decide (0 < c.rating)
    && (match c.endDate with | some e => e.blt now | none => false)
    && (match c.startDate with | some s => s.year == year | none => false)
    && c.challenges.any (fun ch => ch.status == "solved" && !ch.solvers.isEmpty)

/-- Insertion of one element into a list sorted by the boolean relation
`le`, used to model the `order_by` / `sorted` steps. -/
def insertSorted (le : α → α → Bool) (x : α) : List α → List α
  | [] => [x]
  | y :: ys => if le x y then x :: y :: ys else y :: insertSorted le x ys

/-- Insertion sort by the boolean relation `le`. -/
def sortBy (le : α → α → Bool) (l : List α) : List α :=
  l.foldr (insertSorted le) []

/-- Ascending comparison of nullable dates (`ORDER BY ... ASC`,
nulls last, the PostgreSQL default). -/
def bleOptDT : Option DateTime → Option DateTime → Bool
  | none, none => true
  | none, some _ => false
  | some _, none => true
  | some a, some b => a.ble b

/-- The competitions `ranking_stats` processes, in processing order: the
queryset filtered by `rankingFilter` and ordered by `start_date`
ascending. -/
def rankingQualifying (db : List Ctf) (now : DateTime) (year : Int) : List Ctf :=
  sortBy (fun a b => bleOptDT a.startDate b.startDate) (db.filter (rankingFilter now year))

/-- The key set of the `ctf.member_points` dict (models.py lines
1793-1802): every member appearing in the solver set of some challenge of
the competition, in first-appearance order.  The loop runs over
`ctf.challenge_set.all()`, i.e. over ALL challenges of the competition —
the queryset filter on `challenge__status` selects which competitions
qualify but does not restrict the prefetched challenge set. -/
def ctfMembers (c : Ctf) : List MemberId :=
  c.challenges.foldl (fun acc ch => ch.solvers.foldl addIfNew acc) []

/-- The value `ctf.member_points[m]` (models.py lines 1795-1802): for each
challenge of the competition (solved or not) in whose solver set `m`
appears, add `chall.points / len(chall.solvers.all())`. -/
def memberPoints (c : Ctf) (m : MemberId) : ℚ :=
  c.challenges.foldl (fun acc ch => if m ∈ ch.solvers then acc + share ch m else acc) 0

/-- `total_points = sum(ctf.member_points.values())` (models.py line 1815). -/
def totalPoints (c : Ctf) : ℚ :=
  ((ctfMembers c).map (memberPoints c)).sum

/-- The `members` set of `ranking_stats` (models.py lines 1789-1799):
every member scoring in some processed competition (a Python `set`;
modelled in first-appearance order, which no proved property depends
on). -/
def allMembers (ctfs : List Ctf) : List MemberId :=
  ctfs.foldl (fun acc c => c.challenges.foldl (fun a ch => ch.solvers.foldl addIfNew a) acc) []

/-- The `percent` computed for member `m` at competition `c` (models.py
lines 1818-1824): `100 * points / total_points` when `m` is a key of
`member_points`, `0` otherwise. -/
def percentAt (c : Ctf) (m : MemberId) : ℚ :=
  if m ∈ ctfMembers c then 100 * memberPoints c m / totalPoints c else 0

/-- The `rating` contribution computed for member `m` at competition `c`
(models.py lines 1818-1823): `ctf.rating * points / total_points` when `m`
is a key of `member_points`, `0` otherwise. -/
def contribAt (c : Ctf) (m : MemberId) : ℚ :=
  if m ∈ ctfMembers c then c.rating * memberPoints c m / totalPoints c else 0

/-- One accumulation step (models.py line 1826):
`member.rating_accu = round(member.rating_accu + rating, 2)`. -/
def accuStep (accu : ℚ) (c : Ctf) (m : MemberId) : ℚ :=
  round2 (accu + contribAt c m)

/-- The successive values of `member.rating_accu` recorded in
`member.ratings` (models.py lines 1826-1827), one per processed
competition, starting from the per-run reset `rating_accu = 0`. -/
def accuSeriesAux (a : ℚ) (m : MemberId) : List Ctf → List ℚ
  | [] => []
  | c :: cs => accuStep a c m :: accuSeriesAux (accuStep a c m) m cs

def accuSeries (ctfs : List Ctf) (m : MemberId) : List ℚ :=
  accuSeriesAux 0 m ctfs

/-- The final `member.rating_accu` after all processed competitions. -/
def accuFold (ctfs : List Ctf) (m : MemberId) : ℚ :=
  ctfs.foldl (fun a c => accuStep a c m) 0

/-- `member.ratings`: OrderedDict mapping each processed competition to
the accumulated rating after it. -/
def ratingsSeries (ctfs : List Ctf) (m : MemberId) : List (Nat × ℚ) :=
  (ctfs.map Ctf.id).zip (accuSeries ctfs m)

/-- `member.percents`: OrderedDict mapping each processed competition to
the member's percent there. -/
def percentsSeries (ctfs : List Ctf) (m : MemberId) : List (Nat × ℚ) :=
  ctfs.map (fun c => (c.id, percentAt c m))

/-- `member.percent = round(mean(member.percents.values()), 2)`
(models.py line 1834); only evaluated when at least one competition was
processed. -/
def overallPercent (ctfs : List Ctf) (m : MemberId) : ℚ :=
  round2 (((ctfs.map (fun c => percentAt c m)).sum) / (ctfs.length : ℚ))

/-- One member's row in the `ranking_stats` output. -/
structure RankingEntry where
  member : MemberId
  rating_accu : ℚ
  ratings : List (Nat × ℚ)
  percents : List (Nat × ℚ)
  percent : ℚ
deriving DecidableEq, Repr

/-- The output of `ranking_stats`: the all-time ranking (members sorted by
final `rating_accu` descending) and `last_ctfs` (processed competitions
most-recent-first). -/
structure RankingResult where
  alltime : List RankingEntry
  last_ctfs : List Nat
deriving DecidableEq, Repr

/-- `CtfStats.ranking_stats` (models.py lines 1769-1845).  `none` models a
Python exception escaping the function: for a processed competition,
`max(ctf.member_points.values())` (line 1814) raises `ValueError` when
`member_points` is empty, and `rating = ctf.rating * points /
total_points` (line 1823) raises `ZeroDivisionError` when
`total_points == 0` and some member is a key of `member_points`; together
a processed competition raises exactly when its `member_points` is empty
or its `total_points` is zero. -/
def ranking_stats (db : List Ctf) (now : DateTime) (year : Int) :
    Option RankingResult :=
  let ctfs := rankingQualifying db now year
  if ctfs.any (fun c => (ctfMembers c).isEmpty || totalPoints c == 0) then none
  else
    let entries := (allMembers ctfs).map (fun m =>
      { member := m
        rating_accu := accuFold ctfs m
        ratings := ratingsSeries ctfs m
        percents := percentsSeries ctfs m
        percent := overallPercent ctfs m : RankingEntry })
    some { alltime := sortBy (fun a b => b.rating_accu ≤ a.rating_accu) entries
           last_ctfs := (ctfs.map Ctf.id).reverse }

/-!  `Ctf.team_timeline` (models.py lines 302-329). -/

/-- The challenges walked by `team_timeline`: the competition's challenges
filtered by `status="solved", solvers__isnull=False` (here the filter IS
on the challenge queryset itself), ordered by `solved_time` ascending;
`distinct` only collapses the solver-join duplicates. -/
def timelineChalls (c : Ctf) : List Challenge :=
  sortBy (fun a b => bleOptDT a.solvedTime b.solvedTime)
    (c.challenges.filter (fun ch => ch.status == "solved" && !ch.solvers.isEmpty))

/-- The `members` list of `team_timeline` (models.py lines 311-318):
every solver of some walked challenge, in first-appearance order. -/
def timelineMembers (challs : List Challenge) : List MemberId :=
  challs.foldl (fun acc ch => ch.solvers.foldl addIfNew acc) []

/-- One member's `member.challs` OrderedDict (models.py lines 320-327):
the walk appends, for EVERY walked challenge, the pair (challenge,
running total), where the running total grows by the member's share of
the challenge (0 when the member is not a solver). -/
def memberCurveAux (a : ℚ) (m : MemberId) : List Challenge → List (Nat × ℚ)
  | [] => []
  | ch :: chs => (ch.id, a + share ch m) :: memberCurveAux (a + share ch m) m chs

def memberCurve (challs : List Challenge) (m : MemberId) : List (Nat × ℚ) :=
  memberCurveAux 0 m challs

/-- `Ctf.team_timeline` (models.py lines 302-329): each member that solved
at least one challenge of the competition, with their accumulation
curve. -/
def team_timeline (c : Ctf) : List (MemberId × List (Nat × ℚ)) :=
  (timelineMembers (timelineChalls c)).map
    (fun m => (m, memberCurve (timelineChalls c) m))

/-!  `Member.solved_public_challenges` and `Member.best_category`
(models.py lines 1354-1358 and 1473-1496). -/

/-- `Member.solved_public_challenges` (models.py lines 1354-1358): the
challenges of the reverse many-to-many `solved_challenges` (every
challenge whose solver set contains the member, whatever its status)
restricted to `ctf__visibility="public"`, ordered by `solved_time`. -/
def solved_public_challenges (db : List Ctf) (m : MemberId) : List Challenge :=
  sortBy (fun a b => bleOptDT a.solvedTime b.solvedTime)
    ((db.filter (fun c => c.visibility == "public")).foldr
      (fun c acc => c.challenges.filter (fun ch => m ∈ ch.solvers) ++ acc) [])

/-- The group keys of `values("category__name")`: the distinct category
names, in first-appearance order (the SQL ordering of equal-sum groups is
unspecified; no proved property depends on this order). -/
def categoryKeys (chs : List Challenge) : List (Option String) :=
  chs.foldl (fun acc ch => if ch.category ∈ acc then acc else acc ++ [ch.category]) []

/-- The aggregate `Sum("points")` of one category group. -/
def categoryPoints (chs : List Challenge) (cat : Option String) : Int :=
  chs.foldl (fun s ch => if ch.category = cat then s + ch.points else s) 0

/-- First key attaining the maximal value of `f` (the `-points__sum`
ordering followed by `.first()`). -/
def argmaxBy (f : Option String → Int) : List (Option String) → Option (Option String)
  | [] => none
  | k :: ks =>
    match argmaxBy f ks with
    | none => some k
    | some k2 => if f k2 > f k then some k2 else some k

/-- `Member.best_category` (models.py lines 1473-1496): group the member's
`solved_public_challenges` by category name, sum points, order by the sum
descending; when a year is given, first keep only rows with
`solved_time__year=year`; return `""` when no row qualifies, and
otherwise the `category__name` of the top group (a nullable value). -/
def best_category (db : List Ctf) (m : MemberId) (year : Option Int) :
    Option String :=
  let chs0 := solved_public_challenges db m
  let chs := match year with
    | some y => chs0.filter (fun ch => (ch.solvedTime.map DateTime.year) == some y)
    | none => chs0
  match argmaxBy (categoryPoints chs) (categoryKeys chs) with
  | none => some ""
  | some cat => cat

/-!  Helper lemmas about the rounding function and the fold-based
collection builders. -/

lemma rheInt_le (x : ℚ) : (rheInt x : ℚ) ≤ x + 1 / 2 := by
  unfold rheInt
  split
  · rename_i h
    have hx : x = (⌊x⌋ : ℚ) + 1 / 2 := by
      have hf := Int.floor_add_fract x
      rw [h] at hf
      linarith
    split
    · linarith
    · push_cast
      linarith
  · exact Int.floor_le (x + 1 / 2)

lemma le_rheInt (x : ℚ) : x - 1 / 2 ≤ (rheInt x : ℚ) := by
  unfold rheInt
  split
  · rename_i h
    have hx : x = (⌊x⌋ : ℚ) + 1 / 2 := by
      have hf := Int.floor_add_fract x
      rw [h] at hf
      linarith
    split
    · linarith
    · push_cast
      linarith
  · have hlt := Int.lt_floor_add_one (x + 1 / 2)
    push_cast at hlt
    linarith

lemma rheInt_mono {x y : ℚ} (h : x ≤ y) : rheInt x ≤ rheInt y := by
  by_contra hlt
  push_neg at hlt
  have h1 : (rheInt y : ℚ) + 1 ≤ (rheInt x : ℚ) := by
    have hstep : rheInt y + 1 ≤ rheInt x := hlt
    exact_mod_cast hstep
  have h3 := rheInt_le x
  have h4 := le_rheInt y
  have hxy : x = y := le_antisymm h (by linarith)
  rw [hxy] at hlt
  exact absurd hlt (lt_irrefl _)

lemma round2_mono {x y : ℚ} (h : x ≤ y) : round2 x ≤ round2 y := by
  unfold round2
  have hm : rheInt (x * 100) ≤ rheInt (y * 100) := rheInt_mono (by linarith)
  have hq : ((rheInt (x * 100) : ℚ)) ≤ (rheInt (y * 100) : ℚ) := by exact_mod_cast hm
  linarith

lemma round2_isHundredth (x : ℚ) : IsHundredth (round2 x) :=
  ⟨rheInt (x * 100), rfl⟩

lemma rheInt_intCast (n : ℤ) : rheInt (n : ℚ) = n := by
  unfold rheInt
  rw [Int.fract_intCast]
  have hne : (0 : ℚ) ≠ 1 / 2 := by norm_num
  rw [if_neg hne]
  have hhalf : ⌊(1 / 2 : ℚ)⌋ = 0 := by
    rw [Int.floor_eq_zero_iff]
    constructor
    · norm_num
    · norm_num
  rw [Int.floor_int_add, hhalf, add_zero]

lemma round2_fixed {x : ℚ} (h : IsHundredth x) : round2 x = x := by
  obtain ⟨n, rfl⟩ := h
  unfold round2
  have h100 : ((n : ℚ) / 100) * 100 = (n : ℚ) := by field_simp
  rw [h100, rheInt_intCast]

lemma accuStep_ge {a : ℚ} {c : Ctf} {m : MemberId} (hh : IsHundredth a)
    (hc : 0 ≤ contribAt c m) : a ≤ accuStep a c m := by
  have h1 : round2 a ≤ round2 (a + contribAt c m) := round2_mono (by linarith)
  rw [round2_fixed hh] at h1
  exact h1

lemma accuSeriesAux_chain (m : MemberId) (l : List Ctf) :
    ∀ a : ℚ, IsHundredth a → (∀ c ∈ l, 0 ≤ contribAt c m) →
      List.Chain' (· ≤ ·) (a :: accuSeriesAux a m l) := by
  induction l with
  | nil =>
    intro a _ _
    simp [accuSeriesAux]
  | cons c cs ih =>
    intro a hh hl
    simp only [accuSeriesAux]
    rw [List.chain'_cons]
    refine ⟨accuStep_ge hh (hl c (List.mem_cons_self c cs)), ?_⟩
    exact ih (accuStep a c m) (round2_isHundredth _)
      (fun c' hc' => hl c' (List.mem_cons_of_mem _ hc'))

lemma mem_foldl_addIfNew (ms : List MemberId) :
    ∀ (acc : List MemberId) (a : MemberId),
      (a ∈ ms.foldl addIfNew acc ↔ a ∈ acc ∨ a ∈ ms) := by
  induction ms with
  | nil => simp
  | cons x xs ih =>
    intro acc a
    simp only [List.foldl_cons, ih, List.mem_cons]
    unfold addIfNew
    by_cases hx : x ∈ acc
    · rw [if_pos hx]
      constructor
      · rintro (h | h)
        · exact Or.inl h
        · exact Or.inr (Or.inr h)
      · rintro (h | h | h)
        · exact Or.inl h
        · exact Or.inl (h ▸ hx)
        · exact Or.inr h
    · rw [if_neg hx]
      simp only [List.mem_append, List.mem_singleton]
      tauto

lemma mem_timelineMembers (challs : List Challenge) (a : MemberId) :
    a ∈ timelineMembers challs ↔ ∃ ch ∈ challs, a ∈ ch.solvers := by
  unfold timelineMembers
  suffices h : ∀ acc : List MemberId,
      (a ∈ challs.foldl (fun acc ch => ch.solvers.foldl addIfNew acc) acc ↔
        a ∈ acc ∨ ∃ ch ∈ challs, a ∈ ch.solvers) by
    simpa using h []
  induction challs with
  | nil => simp
  | cons ch chs ih =>
    intro acc
    simp only [List.foldl_cons, ih, mem_foldl_addIfNew, List.exists_mem_cons_iff]
    tauto

lemma memberCurveAux_keys (m : MemberId) (l : List Challenge) :
    ∀ a : ℚ, (memberCurveAux a m l).map Prod.fst = l.map Challenge.id := by
  induction l with
  | nil => intro a; rfl
  | cons ch chs ih =>
    intro a
    simp only [memberCurveAux, List.map_cons, ih]

/-!  Concrete database states used by the claim theorems.  Members are
identified by number (1 = Alice, 2 = Bob, 3 = Carol).  Competitions
created through the application store `"OPEN"` (the PUBLIC choice) in
`visibility`; states with the raw string `"public"` exercise the literal
comparison the statistics code performs. -/

def chAlice10 : Challenge := ⟨1, 10, some "pwn", "f1", "solved", some ⟨2024, 1⟩, [1]⟩

def chBoth20 : Challenge := ⟨2, 20, some "web", "f2", "solved", some ⟨2024, 2⟩, [1, 2]⟩

def ctfTimeline : Ctf := ⟨7, "OPEN", 100, some ⟨2024, 0⟩, some ⟨2024, 5⟩, [chAlice10, chBoth20]⟩

def chSolved100 : Challenge := ⟨1, 100, some "pwn", "f", "solved", some ⟨2024, 1⟩, [1]⟩

def chUnsolved50 : Challenge := ⟨2, 50, some "web", "", "unsolved", some ⟨2024, 2⟩, [2]⟩

def ctfMixed : Ctf := ⟨9, "public", 100, some ⟨2024, 0⟩, some ⟨2024, 5⟩, [chSolved100, chUnsolved50]⟩

def statsNow : DateTime := ⟨2025, 0⟩

def chZeroPts : Challenge := ⟨1, 0, some "misc", "f", "solved", some ⟨2024, 1⟩, [1]⟩

def ctfZeroTotal : Ctf := ⟨11, "public", 100, some ⟨2024, 0⟩, some ⟨2024, 5⟩, [chZeroPts]⟩

def ctfOpen : Ctf := ⟨13, "OPEN", 100, some ⟨2024, 0⟩, some ⟨2024, 5⟩, [chSolved100]⟩

def ctfLit : Ctf := ⟨13, "public", 100, some ⟨2024, 0⟩, some ⟨2024, 5⟩, [chSolved100]⟩

def chPwn30 : Challenge := ⟨1, 30, some "pwn", "a", "solved", some ⟨2024, 1⟩, [1]⟩

def chPwn70 : Challenge := ⟨2, 70, some "pwn", "b", "solved", some ⟨2024, 2⟩, [1]⟩

def chWeb40 : Challenge := ⟨3, 40, some "web", "c", "solved", some ⟨2024, 3⟩, [1]⟩

def ctfCatOpen : Ctf := ⟨15, "OPEN", 100, some ⟨2024, 0⟩, some ⟨2024, 5⟩, [chPwn30, chPwn70, chWeb40]⟩

def ctfCatLit : Ctf := ⟨15, "public", 100, some ⟨2024, 0⟩, some ⟨2024, 5⟩, [chPwn30, chPwn70, chWeb40]⟩

def chSolvedFlag : Challenge := ⟨1, 10, some "pwn", "flag", "solved", some ⟨2024, 1⟩, [1]⟩

def chResolved : Challenge := ⟨1, 10, some "pwn", "", "unsolved", some ⟨2024, 1⟩, [1, 2]⟩

def freshChallenge : Challenge := ⟨1, 10, some "pwn", "", "unsolved", none, []⟩

/-!  Claim C1. -/

/-- C1: `ranking_stats` does NOT process the PUBLIC, finished, rated,
in-year competitions: its queryset compares `visibility` with the literal
`"public"`, while a PUBLIC competition stores `"OPEN"`
(`Ctf.VisibilityType.PUBLIC`).  `ctfOpen` satisfies every condition of the
claim (PUBLIC, finished, `rating > 0`, starts in 2024, and even has a
solved challenge with a solver) yet is not processed; conversely a raw row
carrying the literal `"public"` is processed although it is not PUBLIC. -/
theorem c1_public_competitions_never_processed :
    ctfOpen.is_public = true ∧
    ctfOpen.is_finished statsNow = some true ∧
    (0 : ℚ) < ctfOpen.rating ∧
    ctfOpen.startDate.map DateTime.year = some 2024 ∧
    rankingQualifying [ctfOpen] statsNow 2024 = [] ∧
    ctfLit.is_public = false ∧
    rankingQualifying [ctfLit] statsNow 2024 = [ctfLit] := by
  decide

/-!  Claim C2. -/

/-- C2 counterexample: on a changed event with an EMPTY candidate text
(un-solving `chSolvedFlag`, whose stored flag is `"flag"`), the submitter
(member 2) is nevertheless added to the solver set, so the solver set does
not stay unchanged. -/
theorem c2_counterexample :
    ("" ≠ chSolvedFlag.flag) ∧
    (2 : MemberId) ∉ chSolvedFlag.solvers ∧
    (2 : MemberId) ∈ (submit_flag chSolvedFlag "" 2 ⟨2024, 9⟩).solvers ∧
    (submit_flag chSolvedFlag "" 2 ⟨2024, 9⟩).solvers ≠ chSolvedFlag.solvers := by
  decide

/-- C2 (amended): on every changed event — whatever the candidate text,
empty or not — `Challenge.save` adds the submitter to the solver set
(idempotently); only an unchanged submission leaves the solver set
untouched. -/
theorem c2_solver_added_on_every_change (c : Challenge) (text : String)
    (m : MemberId) (now : DateTime) (h : text ≠ c.flag) :
    (submit_flag c text m now).solvers = addIfNew c.solvers m := by
  unfold submit_flag
  rw [if_pos h]

theorem c2_solver_added_on_every_change_witness :
    ("" ≠ chSolvedFlag.flag) ∧
    (submit_flag chSolvedFlag "" 7 ⟨2024, 9⟩).solvers = addIfNew chSolvedFlag.solvers 7 :=
  ⟨by decide, c2_solver_added_on_every_change chSolvedFlag "" 7 ⟨2024, 9⟩ (by decide)⟩

/-!  Claim C3. -/

/-- C3: a competition processed by the aggregator sums member points over
ALL of its challenges with a non-empty solver set, not only the SOLVED
ones: `ctfMixed` (processed) has a solved 100-point challenge solved by
member 1 and an UNSOLVED 50-point challenge whose solver set is {2}; the
code credits member 2 with 50 points and computes `total_points = 150`,
while the claim demands 0 for member 2 and a total of 100 (the points of
the solved challenges). -/
theorem c3_unsolved_challenges_scored :
    rankingQualifying [ctfMixed] statsNow 2024 = [ctfMixed] ∧
    chUnsolved50.status = "unsolved" ∧
    (2 : MemberId) ∈ chUnsolved50.solvers ∧
    memberPoints ctfMixed 2 = 50 ∧
    totalPoints ctfMixed = 150 := by
  refine ⟨by decide, by decide, by decide, ?_, ?_⟩
  · norm_num [memberPoints, share, ctfMixed, chSolved100, chUnsolved50, List.foldl]
  · norm_num [totalPoints, ctfMembers, memberPoints, share, addIfNew, ctfMixed,
      chSolved100, chUnsolved50, List.foldl]

/-!  Claim C4. -/

/-- Evaluation of `team_timeline` on the C4 example competition. -/
lemma timeline_eval :
    team_timeline ctfTimeline = [(1, [(1, 10), (2, 20)]), (2, [(1, 0), (2, 10)])] := by
  norm_num [team_timeline, timelineChalls, timelineMembers, sortBy, insertSorted, bleOptDT,
    DateTime.ble, addIfNew, memberCurve, memberCurveAux, share, ctfTimeline, chAlice10,
    chBoth20, List.foldl, List.filter, List.foldr]

/-- C4 counterexample: in the competition whose solved challenges are, in
`solved_time` order, challenge 1 (10 points, solved by member 1) and
challenge 2 (20 points, solved by members 1 and 2), member 2's curve is
`[(ch1, 0), (ch2, 10)]` — it contains an entry for challenge 1, which the
member did not solve — and not `[(ch2, 10)]` as the claim states. -/
theorem c4_counterexample :
    (team_timeline ctfTimeline).lookup 2 = some [(1, 0), (2, 10)] ∧
    (team_timeline ctfTimeline).lookup 2 ≠ some [((2 : Nat), (10 : ℚ))] := by
  rw [timeline_eval]
  decide

/-- C4 (amended): on the example competition, member 1's curve is
`[(ch1, 10), (ch2, 20)]` and member 2's curve is `[(ch1, 0), (ch2, 10)]`:
every appearing member's curve holds one entry per solved challenge of
the competition (its running total unchanged at challenges it did not
solve).  In general a member's curve contains entries exactly for the
walked challenges, and only members with at least one solve in the
competition appear. -/
theorem c4_team_timeline_curves :
    team_timeline ctfTimeline = [(1, [(1, 10), (2, 20)]), (2, [(1, 0), (2, 10)])] ∧
    (∀ ct : Ctf, ∀ p ∈ team_timeline ct,
      p.2.map Prod.fst = (timelineChalls ct).map Challenge.id) ∧
    (∀ ct : Ctf, ∀ p ∈ team_timeline ct, ∃ ch ∈ timelineChalls ct, p.1 ∈ ch.solvers) := by
  refine ⟨timeline_eval, ?_, ?_⟩
  · intro ct p hp
    unfold team_timeline at hp
    obtain ⟨m, _, rfl⟩ := List.mem_map.mp hp
    exact memberCurveAux_keys m (timelineChalls ct) 0
  · intro ct p hp
    unfold team_timeline at hp
    obtain ⟨m, hm, rfl⟩ := List.mem_map.mp hp
    exact (mem_timelineMembers (timelineChalls ct) m).mp hm

theorem c4_team_timeline_curves_witness :
    ((1, [((1 : Nat), (10 : ℚ)), (2, 20)]) ∈ team_timeline ctfTimeline) ∧
    ([((1 : Nat), (10 : ℚ)), (2, 20)].map Prod.fst =
      (timelineChalls ctfTimeline).map Challenge.id) :=
  ⟨by rw [timeline_eval]; decide,
    c4_team_timeline_curves.2.1 ctfTimeline (1, [(1, 10), (2, 20)])
      (by rw [timeline_eval]; decide)⟩

/-!  Claim C5. -/

/-- C5 counterexample: `chResolved` was solved once before (its
`solved_time` is already stamped with (2024, 1)) and is currently
UNSOLVED; submitting a non-empty flag flips it back to SOLVED and
RE-stamps `solved_time` to the new time (2024, 9), instead of leaving the
original stamp unchanged as the claim states. -/
theorem c5_counterexample :
    chResolved.solvedTime = some ⟨2024, 1⟩ ∧
    chResolved.status ≠ "solved" ∧
    ("F2" ≠ chResolved.flag) ∧
    (submit_flag chResolved "F2" 3 ⟨2024, 9⟩).solvedTime = some ⟨2024, 9⟩ ∧
    (submit_flag chResolved "F2" 3 ⟨2024, 9⟩).solvedTime ≠ chResolved.solvedTime := by
  decide

/-- C5 (amended): the `MonitorField` stamps `solved_time = now` on EVERY
transition into SOLVED: whenever a changed submission with a non-empty
text finds the challenge not SOLVED, `solved_time` is set to the current
time, whether or not it was previously set. -/
theorem c5_solved_time_restamped (c : Challenge) (text : String)
    (m : MemberId) (now : DateTime) (h1 : text ≠ c.flag) (h2 : text ≠ "")
    (h3 : c.status ≠ "solved") :
    (submit_flag c text m now).solvedTime = some now := by
  unfold submit_flag
  rw [if_pos h1]
  show (if (if text ≠ "" then "solved" else "unsolved") ≠ c.status ∧
      (if text ≠ "" then "solved" else "unsolved") = "solved" then some now
    else c.solvedTime) = some now
  rw [if_pos h2]
  exact if_pos ⟨fun hs => h3 hs.symm, rfl⟩

theorem c5_solved_time_restamped_witness :
    ("F2" ≠ chResolved.flag) ∧ ("F2" ≠ "") ∧ (chResolved.status ≠ "solved") ∧
    (submit_flag chResolved "F2" 3 ⟨2024, 9⟩).solvedTime = some ⟨2024, 9⟩ :=
  ⟨by decide, by decide, by decide,
    c5_solved_time_restamped chResolved "F2" 3 ⟨2024, 9⟩ (by decide) (by decide) (by decide)⟩

/-!  Claim C8. -/

/-- C8: the invariant `status == SOLVED ⟺ flag non-empty` is preserved by
every `submit_flag` call: a changed event re-establishes it outright
(status is recomputed from the new flag's emptiness), and an unchanged
submission is a no-op. -/
theorem c8_status_iff_flag (c : Challenge) (text : String) (m : MemberId)
    (now : DateTime) (h : flagStatusInv c) :
    flagStatusInv (submit_flag c text m now) := by
  unfold flagStatusInv submit_flag at *
  by_cases hch : text ≠ c.flag
  · rw [if_pos hch]
    by_cases ht : text = ""
    · subst ht
      simp
    · simp [ht]
  · rw [if_neg hch]
    exact h

theorem c8_status_iff_flag_witness :
    flagStatusInv freshChallenge ∧
    flagStatusInv (submit_flag freshChallenge "abc" 1 ⟨2024, 1⟩) :=
  ⟨by unfold flagStatusInv; decide,
    c8_status_iff_flag freshChallenge "abc" 1 ⟨2024, 1⟩ (by unfold flagStatusInv; decide)⟩

/-!  Claim C6. -/

/-- C6: `best_category` never sees the member's solves in PUBLIC
competitions: `solved_public_challenges` filters on the literal
`ctf__visibility="public"` while a PUBLIC competition stores `"OPEN"`.
For the member who solved "pwn" challenges worth 30 and 70 points and a
"web" challenge worth 40 points in the PUBLIC competition `ctfCatOpen`,
the code returns `""` instead of `"pwn"`.  On an identical raw row whose
`visibility` is the literal `"public"`, the grouping/summing/argmax logic
does return `"pwn"` (and `""` for a member with no qualifying solves), so
the divergence is exactly the visibility comparison. -/
theorem c6_best_category_public_mismatch :
    ctfCatOpen.is_public = true ∧
    best_category [ctfCatOpen] 1 none = some "" ∧
    best_category [ctfCatLit] 1 none = some "pwn" ∧
    best_category [ctfCatLit] 1 (some 2024) = some "pwn" ∧
    best_category [ctfCatLit] 2 none = some "" := by
  decide

/-!  Claim C7. -/

/-- C7: a competition CAN reach the percent computation with
`total_points == 0` (here: its only solved challenge is worth 0 points),
and there the code raises `ZeroDivisionError` (modelled by `none`) instead
of yielding percent 0 for every member. -/
theorem c7_zero_total_divides_by_zero :
    rankingQualifying [ctfZeroTotal] statsNow 2024 = [ctfZeroTotal] ∧
    totalPoints ctfZeroTotal = 0 ∧
    ranking_stats [ctfZeroTotal] statsNow 2024 = none := by
  have hq : rankingQualifying [ctfZeroTotal] statsNow 2024 = [ctfZeroTotal] := by decide
  have htot : totalPoints ctfZeroTotal = 0 := by
    norm_num [totalPoints, ctfMembers, memberPoints, share, addIfNew, ctfZeroTotal,
      chZeroPts, List.foldl]
  have hcond : ((rankingQualifying [ctfZeroTotal] statsNow 2024).any
      (fun c => (ctfMembers c).isEmpty || totalPoints c == 0)) = true := by
    rw [hq]
    simp [htot]
  refine ⟨hq, htot, ?_⟩
  simp [ranking_stats, hcond]

/-!  Claim C9. -/

/-- C9: across the chronologically ordered competitions processed for one
year, the recorded `rating_accu` values of any member form a
non-decreasing sequence, provided every per-competition contribution is
non-negative: each step is `round(accu + contribution, 2)`, the
accumulator is always a whole number of hundredths, and rounding to
hundredths is monotone and fixes such values. -/
theorem c9_rating_accu_monotone (db : List Ctf) (now : DateTime) (year : Int)
    (m : MemberId)
    (h : ∀ c ∈ rankingQualifying db now year, 0 ≤ contribAt c m) :
    List.Chain' (· ≤ ·) (accuSeries (rankingQualifying db now year) m) := by
  have h0 : IsHundredth (0 : ℚ) := ⟨0, by norm_num⟩
  have hchain := accuSeriesAux_chain m (rankingQualifying db now year) 0 h0 h
  simpa [accuSeries] using hchain.tail

theorem c9_rating_accu_monotone_witness :
    (∀ c ∈ rankingQualifying [ctfLit] statsNow 2024, 0 ≤ contribAt c 1) ∧
    List.Chain' (· ≤ ·) (accuSeries (rankingQualifying [ctfLit] statsNow 2024) 1) := by
  have hq : rankingQualifying [ctfLit] statsNow 2024 = [ctfLit] := by decide
  have hall : ∀ c ∈ rankingQualifying [ctfLit] statsNow 2024, 0 ≤ contribAt c 1 := by
    rw [hq]
    intro c hc
    rw [List.mem_singleton] at hc
    subst hc
    norm_num [contribAt, ctfMembers, memberPoints, totalPoints, share, addIfNew, ctfLit,
      chSolved100, List.foldl]
  exact ⟨hall, c9_rating_accu_monotone [ctfLit] statsNow 2024 1 hall⟩

/-!  Claim C10. -/

/-- C10: for a challenge with a non-empty solver set, the shares
`points / |solvers|` credited to the solvers sum to exactly the
challenge's points. -/
theorem c10_shares_sum_to_points (ch : Challenge) (h : ch.solvers ≠ []) :
    ((ch.solvers).map (share ch)).sum = (ch.points : ℚ) := by
  have hlen : (ch.solvers.length : ℚ) ≠ 0 := by
    have hnz : ch.solvers.length ≠ 0 := fun h0 => h (List.length_eq_zero.mp h0)
    exact_mod_cast hnz
  have hmap : (ch.solvers).map (share ch) =
      (ch.solvers).map (fun _ => (ch.points : ℚ) / (ch.solvers.length : ℚ)) :=
    List.map_congr_left (fun m hm => by simp [share, hm])
  rw [hmap, List.map_const', List.sum_replicate, nsmul_eq_mul]
  field_simp

theorem c10_shares_sum_to_points_witness :
    (chBoth20.solvers ≠ []) ∧
    ((chBoth20.solvers).map (share chBoth20)).sum = (chBoth20.points : ℚ) :=
  ⟨by decide, c10_shares_sum_to_points chBoth20 (by decide)⟩

end Ctfhub
